import Mathlib

/-!
Verification development for the mypdfchat RAG service.

Shallow embedding of the core operations of the repository:
upload validation (app/api/v1/endpoints/upload.py,
app/Services/input_data_handle_service.py), hierarchical chunk
parent mapping (app/Services/chunking_strategies.py), retrieval
(app/Services/retrieval_service.py,
app/Providers/vector_store_provider/client.py), the five-phase SSE
chat pipeline (app/api/v1/endpoints/chat.py), chat history
(app/Providers/chat_history_provider/client.py) and file deletion
(app/api/v1/endpoints/files.py).

Conventions: Python exceptions are modelled with Except/Option;
external port calls whose source is out of scope (the embedding
model, the LLM transport, MongoDB, the FAISS index) are modelled as
environment data recording the outcome of each call; IEEE doubles
in the parent-index computation are idealized to exact rational
(here natural-number) arithmetic, noted where it matters.
-/

namespace MyPdfChat

/-! ## Python pathlib suffix semantics

Path(filename).suffix: the substring from the last dot of the final
component, non-empty only when that dot is neither the leading
character nor the last character (CPython checks 0 < i < len-1). -/

/-- Python str.lower on the character list (ASCII-relevant here). -/
def strToLower (s : String) : String :=
  String.mk (s.data.map Char.toLower)

/-- Python str.endswith: the character list ends with the given
suffix (case-sensitive). -/
def pyEndsWith (s suff : String) : Bool :=
  let cs := s.data
  let ps := suff.data
  decide (ps.length ≤ cs.length) && decide (cs.drop (cs.length - ps.length) = ps)

/-- Index of the last occurrence of a dot in a character list. -/
def lastDotIndex (cs : List Char) : Option Nat :=
  cs.enum.foldl (fun acc p => if p.2 = '.' then some p.1 else acc) none

/-- Embeds Python Path(filename).suffix (filenames here have no directory part). -/
def pySuffix (name : String) : String :=
  let cs := name.data
  match lastDotIndex cs with
  | none => ""
  | some i => if 0 < i ∧ i < cs.length - 1 then String.mk (cs.drop i) else ""

/-- Embeds `Path(filename).suffix.lower().lstrip('.')` from
InputDataHandleService.validate_file (input_data_handle_service.py:122). -/
def extOf (name : String) : String :=
  String.mk ((strToLower (pySuffix name)).data.dropWhile (fun c => c = '.'))

/-! ## InputDataHandleService.validate_file (input_data_handle_service.py:101-142) -/

/-- Default of settings.ALLOWED_EXTENSIONS (app/core/config.py:99). -/
def defaultAllowedExtensions : List String := ["pdf"]

/-- Default of settings.MAX_FILE_SIZE (app/core/config.py:98). -/
def defaultMaxFileSize : Nat := 50000000

/-- Embeds InputDataHandleService.validate_file: returns some error
message when the file is rejected, none when it passes.  Checks, in
order: extension membership in the allow-list, size bound, emptiness. -/
def validate_file (allowedExtensions : List String) (maxFileSize : Nat)
    (fileLen : Nat) (filename : String) : Option String :=
  let fileExt := extOf filename
  if ¬ fileExt ∈ allowedExtensions then
    some "Unsupported file type"
  else if maxFileSize < fileLen then
    some "File too large"
  else if fileLen = 0 then
    some "File is empty"
  else
    none

/-- Embeds the file-validation path of the upload_pdf endpoint
(upload.py:261-286): first the hard-coded case-sensitive
`filename.endswith('.pdf')` check, then validate_file with the
configured defaults.  True when the request is rejected with a 400
validation error. -/
def uploadValidationRejects (fileLen : Nat) (filename : String) : Bool :=
  if ¬ pyEndsWith filename ".pdf" then true
  else (validate_file defaultAllowedExtensions defaultMaxFileSize fileLen filename).isSome

/-- Rejection condition as claim C7 words it: extension outside
{pdf, docx, txt, md}, or size strictly above the maximum, or empty. -/
def claimC7Rejects (fileLen : Nat) (filename : String) : Bool :=
  !decide (extOf filename ∈ ["pdf", "docx", "txt", "md"])
    || decide (defaultMaxFileSize < fileLen) || decide (fileLen = 0)

/-! ## UUID v4 validation (upload.py:251, files.py:76,157)

Embeds `re.match(r'^[0-9a-f]{8}-[0-9a-f]{4}-4[0-9a-f]{3}-[89ab][0-9a-f]{3}-[0-9a-f]{12}$', user_id, re.IGNORECASE)`. -/

/-- Lowercase hexadecimal digit. -/
def isHexLower (c : Char) : Bool :=
  ('0' ≤ c && c ≤ '9') || ('a' ≤ c && c ≤ 'f')

/-- Character-class pattern of the UUID v4 regular expression:
h = hex digit, v = variant digit [89ab], literals otherwise. -/
def uuidPattern : List Char := "hhhhhhhh-hhhh-4hhh-vhhh-hhhhhhhhhhhh".data

/-- One character against one pattern position. -/
def matchUuidChar (p c : Char) : Bool :=
  if p = 'h' then isHexLower c
  else if p = 'v' then c = '8' || c = '9' || c = 'a' || c = 'b'
  else p = c

/-- Full anchored case-insensitive match of the UUID v4 pattern. -/
def isValidUuidV4 (s : String) : Bool :=
  let t := (strToLower s).data
  t.length = uuidPattern.length
    && (List.zip uuidPattern t).all (fun pc => matchUuidChar pc.1 pc.2)

/-! ## HierarchicalChunkingStrategy._find_parent_index
(chunking_strategies.py:274-302)

children_per_parent = max(1, child_count / parent_count);
parent_idx = int(child_idx / children_per_parent);
return min(parent_idx, parent_count - 1).
The Python floats are idealized to exact arithmetic: for
parent_count < child_count, int(i / (Nc/Np)) is floor(i*Np/Nc),
written here with natural-number division; otherwise
children_per_parent is exactly 1 and parent_idx = child_idx. -/

def find_parent_index (childIdx childCount parentCount : Nat) : Nat :=
  if parentCount = 0 then 0
  else
    let parentIdx :=
      if parentCount < childCount then childIdx * parentCount / childCount
      else childIdx
    min parentIdx (parentCount - 1)

/-- The proportional mapping exactly as claim C8 states it:
min(floor(i * N_parent / N_child), N_parent - 1). -/
def claimC8ParentIndex (childIdx childCount parentCount : Nat) : Nat :=
  min (childIdx * parentCount / childCount) (parentCount - 1)

/-! ## Retrieval (vector_store_provider/client.py, retrieval_service.py)

A retrieval result dict {content, metadata, score}; metadata is
reduced to the fields the claims mention (file_id, level_index).
FAISS similarity scores (L2 distances, IEEE doubles) are idealized
as rationals. -/

structure RChunk where
  content : String
  score : ℚ
  fileId : String
  levelIndex : Nat
deriving DecidableEq, Repr

/-- The vector store provider state: self._stores maps a store id
(= file id) to an index.  The FAISS index itself is external, so a
store is modelled by its ranking function: for each query string,
the full result ranking the index would produce. -/
def StoreMap : Type := List (String × (String → List RChunk))

/-- Embeds VectorStoreProvider.similarity_search
(vector_store_provider/client.py:121-177): ValueError when the
store id is absent, otherwise the top k of the index ranking. -/
def similarity_search (stores : StoreMap) (storeId query : String) (k : Nat) :
    Except String (List RChunk) :=
  match stores.lookup storeId with
  | none => .error "Vector store not found"
  | some rank => .ok ((rank query).take k)

/-- The per-file accumulation loop of RetrievalService.retrieve_context
(retrieval_service.py:121-146): every per-file exception is caught and
the loop continues with the next file. -/
def collectResults (stores : StoreMap) (query : String) (fileIds : List String)
    (topK : Nat) : List RChunk :=
  fileIds.foldl (fun acc fid =>
    match similarity_search stores fid query topK with
    | .error _ => acc
    | .ok rs => acc ++ rs) []

/-- Stable ascending insertion by score (embeds Python list.sort with
key = score, which is stable). -/
def insertByScore (c : RChunk) : List RChunk → List RChunk
  | [] => [c]
  | d :: ds => if d.score ≤ c.score then d :: insertByScore c ds else c :: d :: ds

/-- Stable sort by ascending score. -/
def sortByScore (l : List RChunk) : List RChunk :=
  l.foldl (fun acc c => insertByScore c acc) []

/-- Embeds RetrievalService.retrieve_context
(retrieval_service.py:93-156): per-file search with failure
isolation, a score sort only when include_scores is set and results
are non-empty, then truncation to top_k overall. -/
def retrieve_context (stores : StoreMap) (query : String) (fileIds : List String)
    (topK : Nat) (includeScores : Bool) : List RChunk :=
  let allResults := collectResults stores query fileIds topK
  let sorted := if includeScores ∧ allResults ≠ [] then sortByScore allResults else allResults
  sorted.take topK

/-! ## Phase-2 merge of the chat pipeline (chat.py:183-191)

seen_contents = set(); a result is kept iff its content is non-empty
and not seen before; no re-sorting, no overall truncation. -/

/-- One step of the merge loop; the accumulator is the kept chunks
plus the seen-contents set (modelled as a list queried by contains). -/
def mergeDedupStep (acc : List RChunk × List String) (r : RChunk) :
    List RChunk × List String :=
  if r.content ≠ "" ∧ ¬ acc.2.contains r.content then
    (acc.1 ++ [r], acc.2 ++ [r.content])
  else acc

/-- Embeds the nested merge loops over the per-sub-question result
lists (chat.py:183-191). -/
def mergeDedup (results : List (List RChunk)) : List RChunk :=
  (results.foldl (fun acc rs => rs.foldl mergeDedupStep acc) ([], [])).1

/-! Reference pipeline written from the words of claim C3 / spec
section 4.2 "Merge and rank", for comparison with the code. -/

/-- Spec-side dedup: first occurrence by exact content equality. -/
def dedupByContentFirst (l : List RChunk) : List RChunk :=
  l.foldl (fun acc c =>
    if (acc.map (fun d => d.content)).contains c.content then acc else acc ++ [c]) []

/-- Lexicographic comparison of character lists. -/
def charListLt : List Char → List Char → Bool
  | [], [] => false
  | [], _ :: _ => true
  | _ :: _, [] => false
  | a :: as, b :: bs => a < b || (a = b && charListLt as bs)

/-- Spec-side rank order: ascending score, ties by earliest
(file_id, level_index) lexicographic order. -/
def rankLe (a b : RChunk) : Bool :=
  a.score < b.score
    || (a.score = b.score
        && (charListLt a.fileId.data b.fileId.data
            || (a.fileId = b.fileId && a.levelIndex ≤ b.levelIndex)))

/-- Stable insertion for the spec-side sort. -/
def insertRanked (c : RChunk) : List RChunk → List RChunk
  | [] => [c]
  | d :: ds => if rankLe d c then d :: insertRanked c ds else c :: d :: ds

/-- The merged ranking exactly as claim C3 states it: union the
per-sub-question results, dedup by content (first occurrence), sort
ascending by score with the lexicographic tie-break, take top k. -/
def claimC3MergeRank (results : List (List RChunk)) (k : Nat) : List RChunk :=
  let union := results.flatten
  let deduped := dedupByContentFirst union
  let sorted := deduped.foldl (fun acc c => insertRanked c acc) []
  sorted.take k

/-! ## The streaming chat pipeline (chat.py:126-354)

The generator generate_sse_events as a function from the outcome of
each port call to the emitted event list and the list of
(role, content) messages successfully handed to
chat_history_provider.add_message.

Port-call modelling: query_enhancement_service.expand_query and
prompt_service.build_rag_prompt are imported by chat.py but their
modules are not part of the tree; expand_query is modelled by its
outcome (the expanded question list, or an exception), and prompt
building as total (pure message assembly, spec section 4.3) — its
output does not influence the event sequence.
ChatHistoryProvider.get_chat_history never raises
(chat_history_provider/client.py:162-175 catches and returns None),
so Phase 3 has no failure point.  The LLM stream
(llm_provider/client.py:44-117) yields chunks and re-raises
transport errors: it is modelled by the list of content deltas
parsed out of the chunks received before termination, plus a flag
telling whether the stream ended cleanly or raised mid-way. -/

inductive Event where
  | progress (phase pct : Nat)
  | token (text : String)
  | complete (answer : String) (contextCount : Nat) (expandedQuestions : List String)
  | error (msg : String)
deriving DecidableEq, Repr

/-- The fixed progress events a run emits from the top of Phase 1 up
to the start of Phase 4 (chat.py:137-243): no failure point of the
pipeline lies between them (retrieval and history loading are total,
see above). -/
def pipelineHeadEvents : List Event :=
  [Event.progress 1 0, Event.progress 1 100, Event.progress 2 0,
   Event.progress 2 100, Event.progress 3 0, Event.progress 3 100,
   Event.progress 4 0]

structure PipelineEnv where
  query : String
  sessionId : String
  fileIds : List String
  topK : Nat
  enableExpansion : Bool
  /-- Outcome of query_enhancement_service.expand_query (the
  expanded_questions list, with the .get default already applied). -/
  expansion : Except String (List String)
  stores : StoreMap
  /-- Content deltas parsed from the upstream chunks received before
  the stream terminated (empty deltas are skipped by the code). -/
  llmTokens : List String
  /-- True when the upstream stream terminated cleanly, false when it
  raised after yielding llmTokens. -/
  llmClean : Bool
  llmError : String
  /-- Outcome of add_message for the user message. -/
  saveUserOk : Except String Unit
  /-- Outcome of add_message for the assistant message. -/
  saveAssistantOk : Except String Unit

/-- Embeds generate_sse_events (chat.py:126-354).  Returns the
emitted event list and the (role, content) pairs successfully handed
to add_message in Phase 5.  Any exception inside the try block ends
the stream with a single error event (chat.py:345-352). -/
def generate_sse_events (env : PipelineEnv) : List Event × List (String × String) :=
  match (if env.enableExpansion then env.expansion else Except.ok [env.query]) with
  | .error e => ([Event.progress 1 0, Event.error e], [])
  | .ok expandedQuestions =>
    let contextChunks := mergeDedup (expandedQuestions.map
      (fun q => retrieve_context env.stores q env.fileIds env.topK false))
    let tokens := env.llmTokens.filter (fun t => t ≠ "")
    let fullResponse := String.join tokens
    let headEvents := pipelineHeadEvents
    let tokenEvents := tokens.map Event.token
    if env.llmClean = false then
      (headEvents ++ tokenEvents ++ [Event.error env.llmError], [])
    else
      match env.saveUserOk with
      | .error e =>
        (headEvents ++ tokenEvents
          ++ [Event.progress 4 100, Event.progress 5 0, Event.error e], [])
      | .ok _ =>
        match env.saveAssistantOk with
        | .error e =>
          (headEvents ++ tokenEvents
            ++ [Event.progress 4 100, Event.progress 5 0, Event.error e],
           [("user", env.query)])
        | .ok _ =>
          (headEvents ++ tokenEvents
            ++ [Event.progress 4 100, Event.progress 5 0, Event.progress 5 100,
                Event.complete fullResponse contextChunks.length expandedQuestions],
           [("user", env.query), ("assistant", fullResponse)])

/-- Events only. -/
def pipelineEvents (env : PipelineEnv) : List Event :=
  (generate_sse_events env).1

/-- Messages successfully appended to the session in Phase 5. -/
def pipelineAppends (env : PipelineEnv) : List (String × String) :=
  (generate_sse_events env).2

/-! ## Event-sequence shapes (claim C2) -/

def isProgress : Event → Bool
  | .progress _ _ => true
  | _ => false

def isToken : Event → Bool
  | .token _ => true
  | _ => false

def isComplete : Event → Bool
  | .complete _ _ _ => true
  | _ => false

def isError : Event → Bool
  | .error _ => true
  | _ => false

def isTerminal (e : Event) : Bool := isComplete e || isError e

/-- Membership in the language of
progress+ (token* progress)* (complete | error):
over the alphabet {progress, token, terminal} a word matches iff it
starts with progress, its single terminal is last, every inner
element is progress or token, and the element just before the
terminal is progress. -/
def claimC2Shape (es : List Event) : Bool :=
  match es.head?, es.getLast? with
  | some h, some l =>
    isProgress h && isTerminal l
      && es.dropLast.all (fun e => isProgress e || isToken e)
      && (match es.dropLast.getLast? with
          | some p => isProgress p
          | none => false)
  | _, _ => false

/-- The shape the code actually guarantees: same as claimC2Shape
except that tokens may immediately precede an error terminal —
the language of progress+ (token* progress)* (complete | token* error). -/
def amendedC2Shape (es : List Event) : Bool :=
  match es.head?, es.getLast? with
  | some h, some l =>
    isProgress h && isTerminal l
      && es.dropLast.all (fun e => isProgress e || isToken e)
      && (if isComplete l then
            match es.dropLast.getLast? with
            | some p => isProgress p
            | none => false
          else true)
  | _, _ => false

/-- The ownership check claim C1 / spec section 4.4 requires before
Phase 1: some requested file_id is absent from the relational store
or carries an owner different from the requester.  (The chat
endpoint has no counterpart: chat.py does not depend on the file
metadata provider at all.) -/
def ownershipViolation (db : List (String × String)) (requester : String)
    (fileIds : List String) : Bool :=
  fileIds.any (fun fid =>
    match db.lookup fid with
    | none => true
    | some owner => owner ≠ requester)

/-! ## Chat history provider (chat_history_provider/client.py) -/

structure ChatMessage where
  role : String
  content : String
  timestamp : Nat
deriving DecidableEq, Repr

structure Session where
  sessionId : String
  userId : Option String
  fileIds : List String
  createdAt : Nat
  updatedAt : Nat
  messages : List ChatMessage
  totalMessages : Nat
deriving DecidableEq, Repr

/-- Embeds ChatHistoryProvider.add_message
(chat_history_provider/client.py:201-251): update_one filtered on
session_id, pushing the message, setting updated_at and bumping the
message counter.  There is no upsert: when no document matches, the
update matches zero documents and the call only logs a warning. -/
def add_message (store : List Session) (sid role content : String) (now : Nat) :
    List Session :=
  store.map (fun s =>
    if s.sessionId = sid then
      { s with
        messages := s.messages ++ [⟨role, content, now⟩],
        updatedAt := now,
        totalMessages := s.totalMessages + 1 }
    else s)

/-- Embeds ChatHistoryProvider.get_session (find_one on session_id). -/
def get_session (store : List Session) (sid : String) : Option Session :=
  store.find? (fun s => s.sessionId = sid)

/-- Embeds ChatHistoryProvider.get_messages: empty for a missing
session; messages[-limit:] when a truthy limit is given. -/
def get_messages (store : List Session) (sid : String) (limit : Option Nat) :
    List ChatMessage :=
  match get_session store sid with
  | none => []
  | some s =>
    match limit with
    | none => s.messages
    | some n => if n = 0 then s.messages else s.messages.drop (s.messages.length - n)

/-! ## File deletion endpoint (files.py:116-227) -/

/-- Server state seen by the files endpoint: the relational
file_metadata rows reduced to (file_id, user_id), the vector store
provider state, and the names of the blobs in the upload
directory. -/
structure AppState where
  fileDb : List (String × String)
  stores : StoreMap
  disk : List String

inductive DeleteStatus where
  | badRequest
  | notFound
  | forbidden
  | ok
deriving DecidableEq, Repr

/-- Embeds delete_file (files.py:116-227): UUID validation, 404 when
get_file finds nothing, 403 when the row's user_id differs from the
header, otherwise deletion of the metadata row and of the on-disk
blob {file_id}.pdf.  No call touches the vector store provider. -/
def delete_file (st : AppState) (fileId userId : String) : DeleteStatus × AppState :=
  if ¬ isValidUuidV4 userId then (.badRequest, st)
  else
    match st.fileDb.lookup fileId with
    | none => (.notFound, st)
    | some owner =>
      if owner ≠ userId then (.forbidden, st)
      else
        (.ok,
         { st with
           fileDb := st.fileDb.filter (fun p => p.1 ≠ fileId),
           disk := st.disk.filter (fun f => f ≠ fileId ++ ".pdf") })

/-! ## Upload endpoint control flow (upload.py:183-329) -/

/-- Outcome of each step of upload_pdf/process_and_embed_file.  The
steps after validation are modelled by their success or exception:
extractChunkOk covers process_file (unique id generation, text
extraction, chunking), addFileOk the metadata insert, embedIndexOk
add_document_chunks (embedding plus vector indexing), statusUpdateOk
the final update_embedding_status call. -/
structure UploadEnv where
  userId : String
  filename : String
  fileLen : Nat
  fileId : String
  extractChunkOk : Except String Unit
  addFileOk : Except String Unit
  embedIndexOk : Except String Unit
  statusUpdateOk : Except String Unit

/-- Embeds upload_pdf (upload.py:215-329): returns the HTTP status
and the list of blob files written to the upload directory.
save_uploaded_file (upload.py:44-72, writing
{upload_dir}/{file_id}{ext}) runs at upload.py:300, strictly after
process_and_embed_file has returned; any exception raised before it
propagates to the handler (status 500) without reaching the write. -/
def upload_pdf (env : UploadEnv) : Nat × List String :=
  if ¬ isValidUuidV4 env.userId then (400, [])
  else if ¬ pyEndsWith env.filename ".pdf" then (400, [])
  else if (validate_file defaultAllowedExtensions defaultMaxFileSize
            env.fileLen env.filename).isSome then (400, [])
  else
    match env.extractChunkOk with
    | .error _ => (500, [])
    | .ok _ =>
      match env.addFileOk with
      | .error _ => (500, [])
      | .ok _ =>
        match env.embedIndexOk with
        | .error _ => (500, [])
        | .ok _ =>
          match env.statusUpdateOk with
          | .error _ => (500, [])
          | .ok _ => (200, [env.fileId ++ pySuffix env.filename])

/-! # Theorems -/

/-! ## Claim C7 — upload validation -/

/-- C7 counterexample: the upload "notes.txt" with 10 non-empty
bytes is accepted under the claim's rejection condition (txt is in
the claimed default allow-list, the size is fine, the bytes are
non-empty) yet the endpoint rejects it: the configured allow-list
defaults to {pdf} only, and the endpoint additionally requires the
filename to end in ".pdf". -/
theorem c7_validation_counterexample :
    claimC7Rejects 10 "notes.txt" = false
      ∧ uploadValidationRejects 10 "notes.txt" = true := by
  constructor <;> decide

/-- C7 amended: an upload is rejected with a validation error iff
the filename does not end in ".pdf" (case-sensitively), or its
extension is outside the configured allow-list (default {pdf}), or
its size strictly exceeds the configured maximum (default
50,000,000 bytes), or it is empty; in particular an allowed .pdf
file of exactly the maximum size passes validation. -/
theorem c7_validation_amended :
    (∀ (fileLen : Nat) (filename : String),
      uploadValidationRejects fileLen filename
        = (!pyEndsWith filename ".pdf"
            || !decide (extOf filename ∈ defaultAllowedExtensions)
            || decide (defaultMaxFileSize < fileLen)
            || decide (fileLen = 0)))
      ∧ uploadValidationRejects defaultMaxFileSize "doc.pdf" = false := by
  refine ⟨fun fileLen filename => ?_, by decide⟩
  unfold uploadValidationRejects validate_file
  by_cases hp : pyEndsWith filename ".pdf" = true <;>
    by_cases he : extOf filename ∈ defaultAllowedExtensions <;>
      by_cases hs : defaultMaxFileSize < fileLen <;>
        by_cases hz : fileLen = 0 <;>
          simp [hp, he, hs, hz, Bool.not_eq_true] at *

/-! ## Claim C8 — hierarchical parent mapping -/

/-- C8 counterexample: with 2 children (level L) and 4 parents
(level L-1), the child at index 1 is mapped by the code to parent
index 1, while the claimed proportional formula gives
min(floor(1*4/2), 3) = 2. -/
theorem c8_parent_counterexample :
    find_parent_index 1 2 4 = 1 ∧ claimC8ParentIndex 1 2 4 = 2 := by
  decide

/-- C8 amended: the proportional mapping
min(floor(i*N_parent/N_child), N_parent-1) is exactly what the code
computes whenever the child level is at least as populous as the
parent level (the normal case for decreasing level sizes); when the
parent level is strictly more populous, the code instead maps child
i to parent i. -/
theorem c8_parent_amended :
    (∀ (childIdx childCount parentCount : Nat), parentCount ≤ childCount →
      find_parent_index childIdx childCount parentCount
        = claimC8ParentIndex childIdx childCount parentCount)
      ∧ (∀ (childIdx childCount parentCount : Nat),
          childCount < parentCount → childIdx < childCount →
          find_parent_index childIdx childCount parentCount = childIdx) := by
  constructor
  · intro childIdx childCount parentCount hle
    unfold find_parent_index claimC8ParentIndex
    rcases Nat.eq_zero_or_pos parentCount with h0 | hpos
    · subst h0; simp
    · have hne : parentCount ≠ 0 := Nat.pos_iff_ne_zero.mp hpos
      rcases Nat.lt_or_ge parentCount childCount with hlt | hge
      · simp [hne, hlt]
      · have heq : parentCount = childCount := Nat.le_antisymm hle hge
        subst heq
        simp [hne, Nat.mul_div_cancel _ hpos]
  · intro childIdx childCount parentCount hlt hidx
    unfold find_parent_index
    have hne : parentCount ≠ 0 := by omega
    have hnotlt : ¬ parentCount < childCount := by omega
    have hbound : childIdx ≤ parentCount - 1 := by omega
    simp [hne, hnotlt, Nat.min_eq_left hbound]

/-- C8 witness: the amended statement applied at child index 5 of 10
children over 5 parents (code and formula agree on 2), and at the
counterexample shape 2 children over 4 parents (the code returns the
child index). -/
theorem c8_parent_amended_witness :
    find_parent_index 5 10 5 = claimC8ParentIndex 5 10 5
      ∧ find_parent_index 1 2 4 = 1 :=
  ⟨c8_parent_amended.1 5 10 5 (by decide),
   c8_parent_amended.2 1 2 4 (by decide) (by decide)⟩

/-! ## Claim C9 — retrieval returns at most top_k results -/

/-- Each foldl step of the per-file loop adds at most topK results. -/
theorem collectResults_foldl_length_le (stores : StoreMap) (query : String)
    (topK : Nat) :
    ∀ (fileIds : List String) (acc : List RChunk),
      (fileIds.foldl (fun acc fid =>
        match similarity_search stores fid query topK with
        | .error _ => acc
        | .ok rs => acc ++ rs) acc).length
        ≤ acc.length + fileIds.length * topK := by
  intro fileIds
  induction fileIds with
  | nil => intro acc; simp
  | cons fid rest ih =>
    intro acc
    rw [List.foldl_cons]
    have hstep :
        (match similarity_search stores fid query topK with
         | .error _ => acc
         | .ok rs => acc ++ rs).length ≤ acc.length + topK := by
      unfold similarity_search
      cases h : stores.lookup fid with
      | none => simp
      | some rank =>
        simp only [List.length_append]
        have := List.length_take_le topK (rank query)
        omega
    have hrec := ih (match similarity_search stores fid query topK with
      | .error _ => acc
      | .ok rs => acc ++ rs)
    have harith : (rest.length + 1) * topK = rest.length * topK + topK := by ring
    simp only [List.length_cons]
    omega

/-- C9: retrieve_context returns at most top_k results overall, even
though the per-file loop can accumulate up to (number of files) *
top_k candidates before truncation. -/
theorem c9_retrieve_top_k (stores : StoreMap) (query : String)
    (fileIds : List String) (topK : Nat) (includeScores : Bool) :
    (retrieve_context stores query fileIds topK includeScores).length ≤ topK
      ∧ (collectResults stores query fileIds topK).length
          ≤ fileIds.length * topK := by
  constructor
  · unfold retrieve_context
    exact List.length_take_le _ _
  · have := collectResults_foldl_length_le stores query topK fileIds []
    simpa [collectResults] using this

/-! ## Claim C10 — blob write ordering in upload -/

/-- C10: the uploaded bytes reach the upload directory iff the whole
request succeeded (status 200), which happens iff validation passed
and extraction/chunking, the metadata insert, embedding+indexing and
the status update all succeeded; on any processing failure no blob
is written. -/
theorem c10_blob_after_processing (env : UploadEnv) :
    ((upload_pdf env).2 = []
        ∨ (upload_pdf env).2 = [env.fileId ++ pySuffix env.filename])
      ∧ ((upload_pdf env).2 ≠ [] ↔ (upload_pdf env).1 = 200)
      ∧ ((upload_pdf env).1 = 200 ↔
          (isValidUuidV4 env.userId = true
            ∧ pyEndsWith env.filename ".pdf" = true
            ∧ (validate_file defaultAllowedExtensions defaultMaxFileSize
                env.fileLen env.filename).isSome = false
            ∧ env.extractChunkOk.isOk = true
            ∧ env.addFileOk.isOk = true
            ∧ env.embedIndexOk.isOk = true
            ∧ env.statusUpdateOk.isOk = true)) := by
  unfold upload_pdf
  by_cases hu : isValidUuidV4 env.userId <;>
    by_cases hp : pyEndsWith env.filename ".pdf" <;>
      by_cases hv : (validate_file defaultAllowedExtensions defaultMaxFileSize
          env.fileLen env.filename).isSome <;>
        cases hec : env.extractChunkOk <;>
          cases haf : env.addFileOk <;>
            cases hei : env.embedIndexOk <;>
              cases hsu : env.statusUpdateOk <;>
                simp [hu, hp, hv, Except.isOk, Except.toBool]

/-! ## Claim C6 — appending to a missing session -/

/-- C6 counterexample: appending to session "s1" of an empty session
store leaves the store empty — the session is not created and the
message is not stored, so a subsequent read returns nothing. -/
theorem c6_append_counterexample :
    get_session ([] : List Session) "s1" = none
      ∧ add_message [] "s1" "user" "hi" 7 = []
      ∧ get_messages (add_message [] "s1" "user" "hi" 7) "s1" none = [] :=
  ⟨rfl, rfl, rfl⟩

/-- C6 amended: add_message on a session_id that does not exist is a
silent no-op (update_one without upsert matches zero documents): the
store is unchanged, no session is created, and a subsequent read of
that session returns no messages. -/
theorem c6_append_missing_noop (store : List Session)
    (sid role content : String) (now : Nat)
    (h : get_session store sid = none) :
    add_message store sid role content now = store
      ∧ get_messages (add_message store sid role content now) sid none = [] := by
  have hall : ∀ s ∈ store, ¬ (s.sessionId = sid) := by
    intro s hs
    have := List.find?_eq_none.mp h s hs
    simpa using this
  have hmap : add_message store sid role content now = store := by
    unfold add_message
    have : ∀ s ∈ store,
        (if s.sessionId = sid then
          { s with
            messages := s.messages ++ [⟨role, content, now⟩],
            updatedAt := now,
            totalMessages := s.totalMessages + 1 }
         else s) = s := by
      intro s hs
      simp [hall s hs]
    calc store.map _ = store.map id := List.map_congr_left this
      _ = store := List.map_id store
  refine ⟨hmap, ?_⟩
  rw [hmap]
  unfold get_messages
  rw [h]

/-- A session store holding one unrelated session, for the C6 witness. -/
def c6Store : List Session :=
  [{ sessionId := "other", userId := none, fileIds := [], createdAt := 0,
     updatedAt := 0, messages := [], totalMessages := 0 }]

/-- C6 witness: the amended no-op statement applied to a store that
holds only the session "other", appending to the absent "s1". -/
theorem c6_append_missing_noop_witness :
    add_message c6Store "s1" "user" "hi" 7 = c6Store
      ∧ get_messages (add_message c6Store "s1" "user" "hi" 7) "s1" none = [] :=
  c6_append_missing_noop c6Store "s1" "user" "hi" 7 (by decide)

/-! ## Claim C4 — file deletion does not cascade to the vector store -/

/-- Filtering out a key removes it from association-list lookup. -/
theorem lookup_filter_ne (l : List (String × String)) (k : String) :
    (l.filter (fun p => p.1 ≠ k)).lookup k = none := by
  induction l with
  | nil => rfl
  | cons p rest ih =>
    rw [List.filter_cons]
    by_cases h : p.1 = k
    · simpa [h] using ih
    · have hb : (k == p.1) = false := by
        rw [beq_eq_false_iff_ne]
        exact fun hk => h hk.symm
      simpa [h, List.lookup, hb] using ih

/-- A valid UUID v4 owner id for concrete states. -/
def c4Uuid : String := "550e8400-e29b-41d4-a716-446655440000"

/-- One indexed chunk of file f1. -/
def c4Chunk : RChunk := { content := "hello", score := 1, fileId := "f1", levelIndex := 0 }

/-- Server state with file f1 owned by c4Uuid, its vector store
holding c4Chunk, and its blob on disk. -/
def c4State : AppState :=
  { fileDb := [("f1", c4Uuid)],
    stores := [("f1", fun _ => [c4Chunk])],
    disk := ["f1.pdf"] }

/-- C4 counterexample: the owner's DELETE of f1 succeeds (200), yet a
subsequent retrieval naming f1 still returns the chunk indexed under
f1 — the deletion did not cascade to the vector partition. -/
theorem c4_delete_counterexample :
    (delete_file c4State "f1" c4Uuid).1 = DeleteStatus.ok
      ∧ retrieve_context ((delete_file c4State "f1" c4Uuid).2).stores
          "q" ["f1"] 5 false = [c4Chunk] := by
  constructor
  · rfl
  · rfl

/-- C4 amended: DELETE /v1/files/{file_id} answers 404 when the file
is absent, 403 when the requester is not the owner, and on the
owner's request succeeds, removing the metadata row and the on-disk
blob — but it leaves the vector store provider state untouched, so
retrievals referencing the file_id behave exactly as before the
deletion. -/
theorem c4_delete_amended (st : AppState) (fid uid : String)
    (huid : isValidUuidV4 uid = true) :
    (st.fileDb.lookup fid = none → delete_file st fid uid = (.notFound, st))
      ∧ (∀ owner, st.fileDb.lookup fid = some owner → owner ≠ uid →
          delete_file st fid uid = (.forbidden, st))
      ∧ (st.fileDb.lookup fid = some uid →
          (delete_file st fid uid).1 = DeleteStatus.ok
            ∧ ((delete_file st fid uid).2).stores = st.stores
            ∧ ((delete_file st fid uid).2).fileDb.lookup fid = none
            ∧ ¬ (fid ++ ".pdf") ∈ ((delete_file st fid uid).2).disk
            ∧ (∀ (query : String) (fileIds : List String) (k : Nat) (b : Bool),
                retrieve_context ((delete_file st fid uid).2).stores query fileIds k b
                  = retrieve_context st.stores query fileIds k b)) := by
  refine ⟨fun h => ?_, fun owner h hne => ?_, fun h => ?_⟩
  · unfold delete_file
    simp [huid, h]
  · unfold delete_file
    simp [huid, h, hne]
  · have hd : delete_file st fid uid
        = (DeleteStatus.ok,
           { st with
             fileDb := st.fileDb.filter (fun p => p.1 ≠ fid),
             disk := st.disk.filter (fun f => f ≠ fid ++ ".pdf") }) := by
      unfold delete_file
      simp [huid, h]
    rw [hd]
    refine ⟨rfl, rfl, lookup_filter_ne _ _, ?_, fun _ _ _ _ => rfl⟩
    simp [List.mem_filter]

/-- C4 witness: the amended statement applied at the concrete state
c4State: the owner's deletion returns ok, the metadata row is gone,
and the vector store state is unchanged. -/
theorem c4_delete_amended_witness :
    (delete_file c4State "f1" c4Uuid).1 = DeleteStatus.ok
      ∧ ((delete_file c4State "f1" c4Uuid).2).stores = c4State.stores
      ∧ ((delete_file c4State "f1" c4Uuid).2).fileDb.lookup "f1" = none :=
  ((c4_delete_amended c4State "f1" c4Uuid (by decide)).2.2 (by decide)).imp
    id (fun h => ⟨h.1, h.2.1⟩)

/-! ## Pipeline trace lemmas (claims C1, C2, C5) -/

/-- When expand_query raises, the stream is the opening progress
event followed by the single error event. -/
theorem pipeline_trace_expansion_error (env : PipelineEnv) (e : String)
    (hq : (if env.enableExpansion then env.expansion else Except.ok [env.query])
            = Except.error e) :
    generate_sse_events env = ([Event.progress 1 0, Event.error e], []) := by
  unfold generate_sse_events
  rw [hq]

/-- Mid-stream upstream failure: the already-emitted tokens stand,
the stream ends with the error event, and nothing reaches the
session. -/
theorem pipeline_trace_midstream (env : PipelineEnv) (qs : List String)
    (hq : (if env.enableExpansion then env.expansion else Except.ok [env.query])
            = Except.ok qs)
    (hclean : env.llmClean = false) :
    generate_sse_events env
      = (pipelineHeadEvents
          ++ (env.llmTokens.filter (fun t => t ≠ "")).map Event.token
          ++ [Event.error env.llmError], []) := by
  unfold generate_sse_events
  rw [hq]
  simp [hclean]

/-- Failure of the user-message append in Phase 5. -/
theorem pipeline_trace_save_user_error (env : PipelineEnv) (qs : List String)
    (e : String)
    (hq : (if env.enableExpansion then env.expansion else Except.ok [env.query])
            = Except.ok qs)
    (hclean : env.llmClean = true)
    (hu : env.saveUserOk = Except.error e) :
    generate_sse_events env
      = (pipelineHeadEvents
          ++ (env.llmTokens.filter (fun t => t ≠ "")).map Event.token
          ++ [Event.progress 4 100, Event.progress 5 0, Event.error e], []) := by
  unfold generate_sse_events
  rw [hq]
  simp [hclean, hu]

/-- Failure of the assistant-message append in Phase 5 (the user
message has already been appended). -/
theorem pipeline_trace_save_assistant_error (env : PipelineEnv) (qs : List String)
    (e : String)
    (hq : (if env.enableExpansion then env.expansion else Except.ok [env.query])
            = Except.ok qs)
    (hclean : env.llmClean = true)
    (hu : env.saveUserOk = Except.ok ())
    (ha : env.saveAssistantOk = Except.error e) :
    generate_sse_events env
      = (pipelineHeadEvents
          ++ (env.llmTokens.filter (fun t => t ≠ "")).map Event.token
          ++ [Event.progress 4 100, Event.progress 5 0, Event.error e],
         [("user", env.query)]) := by
  unfold generate_sse_events
  rw [hq]
  simp [hclean, hu, ha]

/-- The fully successful run: complete is emitted last and both
messages reach the session. -/
theorem pipeline_trace_success (env : PipelineEnv) (qs : List String)
    (hq : (if env.enableExpansion then env.expansion else Except.ok [env.query])
            = Except.ok qs)
    (hclean : env.llmClean = true)
    (hu : env.saveUserOk = Except.ok ())
    (ha : env.saveAssistantOk = Except.ok ()) :
    generate_sse_events env
      = (pipelineHeadEvents
          ++ (env.llmTokens.filter (fun t => t ≠ "")).map Event.token
          ++ [Event.progress 4 100, Event.progress 5 0, Event.progress 5 100,
              Event.complete (String.join (env.llmTokens.filter (fun t => t ≠ "")))
                (mergeDedup (qs.map (fun q =>
                  retrieve_context env.stores q env.fileIds env.topK false))).length
                qs],
         [("user", env.query),
          ("assistant", String.join (env.llmTokens.filter (fun t => t ≠ "")))]) := by
  unfold generate_sse_events
  rw [hq]
  simp [hclean, hu, ha]

/-! Event-shape helper lemmas. -/

/-- Token events are neither progress-breaking nor terminal. -/
theorem tokens_all_mid (ts : List String) :
    (ts.map Event.token).all (fun e => isProgress e || isToken e) = true := by
  induction ts with
  | nil => rfl
  | cons t rest ih => simp [isToken, ih]

/-- Token events are not errors. -/
theorem tokens_all_not_error (ts : List String) :
    (ts.map Event.token).all (fun e => !isError e) = true := by
  induction ts with
  | nil => rfl
  | cons t rest ih => simp [isError, ih]

/-- getLast? through a cons and an append with non-empty tail. -/
theorem getLast?_cons_append_ne_nil (a : MyPdfChat.Event) (l₁ l₂ : List MyPdfChat.Event)
    (h : l₂ ≠ []) : (a :: (l₁ ++ l₂)).getLast? = l₂.getLast? := by
  rw [show a :: (l₁ ++ l₂) = (a :: l₁) ++ l₂ from rfl,
    List.getLast?_append_of_ne_nil _ h]

/-- Shape of a run ending in an error right after the tokens. -/
theorem amendedShape_err_after_tokens (ts : List String) (msg : String) :
    amendedC2Shape (pipelineHeadEvents ++ ts.map Event.token
      ++ [Event.error msg]) = true := by
  have hne : ([Event.error msg] : List Event) ≠ [] := by simp
  have hlast : ((pipelineHeadEvents ++ ts.map Event.token) ++ [Event.error msg]).getLast?
      = some (Event.error msg) := List.getLast?_concat _
  have hdrop : ((pipelineHeadEvents ++ ts.map Event.token) ++ [Event.error msg]).dropLast
      = pipelineHeadEvents ++ ts.map Event.token := List.dropLast_concat
  have hhead : ((pipelineHeadEvents ++ ts.map Event.token) ++ [Event.error msg]).head?
      = some (Event.progress 1 0) := by
    simp [pipelineHeadEvents]
  unfold amendedC2Shape
  rw [hhead, hlast, hdrop]
  simp [List.all_append, tokens_all_mid, pipelineHeadEvents,
    isProgress, isToken, isTerminal, isComplete, isError]

/-- Shape of a run ending in an error inside Phase 5. -/
theorem amendedShape_err_phase5 (ts : List String) (msg : String) :
    amendedC2Shape (pipelineHeadEvents ++ ts.map Event.token
      ++ [Event.progress 4 100, Event.progress 5 0, Event.error msg]) = true := by
  have hne : ([Event.progress 4 100, Event.progress 5 0, Event.error msg]
      : List Event) ≠ [] := by simp
  have hlast : ((pipelineHeadEvents ++ ts.map Event.token)
        ++ [Event.progress 4 100, Event.progress 5 0, Event.error msg]).getLast?
      = some (Event.error msg) := by
    rw [List.getLast?_append_of_ne_nil _ hne]
    rfl
  have hdrop : ((pipelineHeadEvents ++ ts.map Event.token)
        ++ [Event.progress 4 100, Event.progress 5 0, Event.error msg]).dropLast
      = (pipelineHeadEvents ++ ts.map Event.token)
          ++ [Event.progress 4 100, Event.progress 5 0] := by
    rw [List.dropLast_append_of_ne_nil _ hne]
    rfl
  have hhead : ((pipelineHeadEvents ++ ts.map Event.token)
        ++ [Event.progress 4 100, Event.progress 5 0, Event.error msg]).head?
      = some (Event.progress 1 0) := by
    simp [pipelineHeadEvents]
  unfold amendedC2Shape
  rw [hhead, hlast, hdrop]
  simp [List.all_append, tokens_all_mid, pipelineHeadEvents,
    isProgress, isToken, isTerminal, isComplete, isError]

/-- Shape of the successful run ending in complete. -/
theorem amendedShape_success (ts : List String) (ans : String) (n : Nat)
    (qs : List String) :
    amendedC2Shape (pipelineHeadEvents ++ ts.map Event.token
      ++ [Event.progress 4 100, Event.progress 5 0, Event.progress 5 100,
          Event.complete ans n qs]) = true := by
  have hne : ([Event.progress 4 100, Event.progress 5 0, Event.progress 5 100,
      Event.complete ans n qs] : List Event) ≠ [] := by simp
  have hlast : ((pipelineHeadEvents ++ ts.map Event.token)
        ++ [Event.progress 4 100, Event.progress 5 0, Event.progress 5 100,
            Event.complete ans n qs]).getLast?
      = some (Event.complete ans n qs) := by
    rw [List.getLast?_append_of_ne_nil _ hne]
    rfl
  have hdrop : ((pipelineHeadEvents ++ ts.map Event.token)
        ++ [Event.progress 4 100, Event.progress 5 0, Event.progress 5 100,
            Event.complete ans n qs]).dropLast
      = (pipelineHeadEvents ++ ts.map Event.token)
          ++ [Event.progress 4 100, Event.progress 5 0, Event.progress 5 100] := by
    rw [List.dropLast_append_of_ne_nil _ hne]
    rfl
  have hhead : ((pipelineHeadEvents ++ ts.map Event.token)
        ++ [Event.progress 4 100, Event.progress 5 0, Event.progress 5 100,
            Event.complete ans n qs]).head?
      = some (Event.progress 1 0) := by
    simp [pipelineHeadEvents]
  have h1 : ((pipelineHeadEvents ++ ts.map Event.token)
      ++ [Event.progress 4 100, Event.progress 5 0, Event.progress 5 100]).all
      (fun e => isProgress e || isToken e) = true := by
    rw [List.all_append, List.all_append]
    simp [tokens_all_mid, pipelineHeadEvents, isProgress, isToken]
  have h2 : ((pipelineHeadEvents ++ ts.map Event.token)
      ++ [Event.progress 4 100, Event.progress 5 0, Event.progress 5 100]).getLast?
      = some (Event.progress 5 100) := by
    rw [List.getLast?_append_of_ne_nil _ (by simp)]
    rfl
  unfold amendedC2Shape
  rw [hhead, hlast, hdrop, h1, h2]
  rfl

/-- Token events are not complete events. -/
theorem tokens_all_not_complete (ts : List String) :
    (ts.map Event.token).all (fun e => !isComplete e) = true := by
  induction ts with
  | nil => rfl
  | cons t rest ih => simp [isComplete, ih]

/-- A run in which the upstream LLM stream fails after one token,
with every other port call succeeding. -/
def midFailEnv : PipelineEnv :=
  { query := "q", sessionId := "s", fileIds := ["f1"], topK := 5,
    enableExpansion := false, expansion := Except.ok ["q"], stores := [],
    llmTokens := ["Hello"], llmClean := false, llmError := "connection reset",
    saveUserOk := Except.ok (), saveAssistantOk := Except.ok () }

/-- A fully successful run whose single requested file f1 exists in
no store (and, in the C1 counterexample, in no metadata row). -/
def noAuthEnv : PipelineEnv :=
  { query := "q", sessionId := "s", fileIds := ["f1"], topK := 5,
    enableExpansion := false, expansion := Except.ok ["q"], stores := [],
    llmTokens := [], llmClean := true, llmError := "",
    saveUserOk := Except.ok (), saveAssistantOk := Except.ok () }

/-! ## Claim C1 — no FORBIDDEN check before streaming -/

/-- C1 counterexample: the request references file f1, which does not
exist in the relational store (so the ownership check the claim
requires fails), yet the stream emits its first progress event and
runs to a complete terminal: no FORBIDDEN failure, and events are
emitted. -/
theorem c1_forbidden_counterexample :
    ownershipViolation [] "550e8400-e29b-41d4-a716-446655440000"
        noAuthEnv.fileIds = true
      ∧ (pipelineEvents noAuthEnv).head? = some (Event.progress 1 0)
      ∧ (pipelineEvents noAuthEnv).getLast? = some (Event.complete "" 0 ["q"])
      ∧ (pipelineEvents noAuthEnv).all (fun e => !isError e) = true := by
  decide

/-- C1 amended: the streaming endpoint performs no ownership or
existence check at all — whatever the relational store says about the
requested file_ids (here: an arbitrary violation of the claimed
check), a run whose port calls succeed emits the full success trace,
with no error event; missing files are silently skipped during
retrieval. -/
theorem c1_no_ownership_check (db : List (String × String)) (requester : String)
    (env : PipelineEnv) (qs : List String)
    (hviol : ownershipViolation db requester env.fileIds = true)
    (hq : (if env.enableExpansion then env.expansion else Except.ok [env.query])
            = Except.ok qs)
    (hclean : env.llmClean = true)
    (hu : env.saveUserOk = Except.ok ())
    (ha : env.saveAssistantOk = Except.ok ()) :
    pipelineEvents env
      = pipelineHeadEvents
        ++ (env.llmTokens.filter (fun t => t ≠ "")).map Event.token
        ++ [Event.progress 4 100, Event.progress 5 0, Event.progress 5 100,
            Event.complete (String.join (env.llmTokens.filter (fun t => t ≠ "")))
              (mergeDedup (qs.map (fun q =>
                retrieve_context env.stores q env.fileIds env.topK false))).length
              qs]
      ∧ (pipelineEvents env).all (fun e => !isError e) = true := by
  have h := pipeline_trace_success env qs hq hclean hu ha
  constructor
  · unfold pipelineEvents
    rw [h]
  · unfold pipelineEvents
    rw [h]
    show ((pipelineHeadEvents ++ _) ++ _).all _ = true
    rw [List.all_append, List.all_append, tokens_all_not_error]
    rfl

/-- C1 witness: the amended statement applied to noAuthEnv with an
empty relational store (every requested file violates ownership). -/
theorem c1_no_ownership_check_witness :
    pipelineEvents noAuthEnv
      = pipelineHeadEvents
        ++ (noAuthEnv.llmTokens.filter (fun t => t ≠ "")).map Event.token
        ++ [Event.progress 4 100, Event.progress 5 0, Event.progress 5 100,
            Event.complete
              (String.join (noAuthEnv.llmTokens.filter (fun t => t ≠ "")))
              (mergeDedup (["q"].map (fun q =>
                retrieve_context noAuthEnv.stores q noAuthEnv.fileIds
                  noAuthEnv.topK false))).length
              ["q"]]
      ∧ (pipelineEvents noAuthEnv).all (fun e => !isError e) = true :=
  c1_no_ownership_check [] "550e8400-e29b-41d4-a716-446655440000" noAuthEnv
    ["q"] (by decide) rfl rfl rfl rfl

/-! ## Claim C2 — event-sequence shape -/

/-- C2 counterexample: when the LLM stream fails right after a token
(midFailEnv), the emitted sequence ends token-then-error with no
intervening progress, so it does not match the claimed regular
expression progress+ (token* progress)* (complete | error). -/
theorem c2_shape_counterexample :
    claimC2Shape (pipelineEvents midFailEnv) = false
      ∧ pipelineEvents midFailEnv
          = pipelineHeadEvents
            ++ [Event.token "Hello", Event.error "connection reset"] := by
  decide

/-- C2 amended: every (non-cancelled) run's event sequence matches
progress+ (token* progress)* (complete | token* error): it starts
with progress, has exactly one terminal which comes last, every
inner event is a progress or a token, and a complete terminal is
always immediately preceded by a progress — but an error terminal
may directly follow tokens. -/
theorem c2_shape_amended (env : PipelineEnv) :
    amendedC2Shape (pipelineEvents env) = true := by
  unfold pipelineEvents
  cases hq : (if env.enableExpansion then env.expansion else Except.ok [env.query]) with
  | error e =>
    rw [pipeline_trace_expansion_error env e hq]
    rfl
  | ok qs =>
    cases hclean : env.llmClean with
    | false =>
      rw [pipeline_trace_midstream env qs hq hclean]
      exact amendedShape_err_after_tokens _ _
    | true =>
      cases hu : env.saveUserOk with
      | error e =>
        rw [pipeline_trace_save_user_error env qs e hq hclean hu]
        exact amendedShape_err_phase5 _ _
      | ok u =>
        cases u
        cases ha : env.saveAssistantOk with
        | error e =>
          rw [pipeline_trace_save_assistant_error env qs e hq hclean hu ha]
          exact amendedShape_err_phase5 _ _
        | ok v =>
          cases v
          rw [pipeline_trace_success env qs hq hclean hu ha]
          exact amendedShape_success _ _ _ _

/-! ## Claim C5 — mid-stream LLM failure handling -/

/-- C5 counterexample: in midFailEnv the stream fails after the
token "Hello"; the run terminates with an error event, nothing is
appended to the session, and no complete event (with or without a
truncation flag) is ever emitted. -/
theorem c5_truncation_counterexample :
    (pipelineEvents midFailEnv).getLast? = some (Event.error "connection reset")
      ∧ pipelineAppends midFailEnv = []
      ∧ (pipelineEvents midFailEnv).all (fun e => !isComplete e) = true := by
  decide

/-- C5 amended: on a mid-stream upstream failure the already-emitted
tokens stand, but the pipeline aborts: it emits a single error
terminal, Phase 5 never runs, nothing is appended to the session,
and no complete event is emitted (the code has no truncation
flag). -/
theorem c5_midstream_amended (env : PipelineEnv) (qs : List String)
    (hq : (if env.enableExpansion then env.expansion else Except.ok [env.query])
            = Except.ok qs)
    (hclean : env.llmClean = false) :
    pipelineEvents env
      = pipelineHeadEvents
        ++ (env.llmTokens.filter (fun t => t ≠ "")).map Event.token
        ++ [Event.error env.llmError]
      ∧ pipelineAppends env = []
      ∧ (pipelineEvents env).all (fun e => !isComplete e) = true := by
  have h := pipeline_trace_midstream env qs hq hclean
  refine ⟨?_, ?_, ?_⟩
  · unfold pipelineEvents
    rw [h]
  · unfold pipelineAppends
    rw [h]
  · unfold pipelineEvents
    rw [h]
    show ((pipelineHeadEvents ++ _) ++ _).all _ = true
    rw [List.all_append, List.all_append, tokens_all_not_complete]
    rfl

/-- C5 witness: the amended statement applied at midFailEnv. -/
theorem c5_midstream_amended_witness :
    pipelineEvents midFailEnv
      = pipelineHeadEvents
        ++ (midFailEnv.llmTokens.filter (fun t => t ≠ "")).map Event.token
        ++ [Event.error midFailEnv.llmError]
      ∧ pipelineAppends midFailEnv = []
      ∧ (pipelineEvents midFailEnv).all (fun e => !isComplete e) = true :=
  c5_midstream_amended midFailEnv ["q"] rfl rfl

/-! ## Claim C3 — merge of per-sub-question results -/

/-- Recursive form of the merge loop over a flattened result list,
carrying the seen-contents set. -/
def mergeAux (seen : List String) : List RChunk → List RChunk
  | [] => []
  | r :: rs =>
    if r.content ≠ "" ∧ ¬ seen.contains r.content then
      r :: mergeAux (seen ++ [r.content]) rs
    else mergeAux seen rs

/-- One-step unfolding of mergeAux on a cons. -/
theorem mergeAux_cons (seen : List String) (r : RChunk) (rs : List RChunk) :
    mergeAux seen (r :: rs)
      = if r.content ≠ "" ∧ ¬ seen.contains r.content then
          r :: mergeAux (seen ++ [r.content]) rs
        else mergeAux seen rs := rfl

/-- The foldl form of the merge loop agrees with mergeAux when the
seen set is exactly the contents of the accumulator. -/
theorem mergeDedupStep_foldl (l : List RChunk) :
    ∀ (cs : List RChunk) (seen : List String),
      seen = cs.map (fun c => c.content) →
      (l.foldl mergeDedupStep (cs, seen)).1 = cs ++ mergeAux seen l := by
  induction l with
  | nil =>
    intro cs seen hseen
    simp [mergeAux]
  | cons r rs ih =>
    intro cs seen hseen
    rw [List.foldl_cons]
    by_cases hc : r.content ≠ "" ∧ ¬ seen.contains r.content
    · have hstep : mergeDedupStep (cs, seen) r = (cs ++ [r], seen ++ [r.content]) := by
        unfold mergeDedupStep
        rw [if_pos hc]
      have hm : mergeAux seen (r :: rs) = r :: mergeAux (seen ++ [r.content]) rs := by
        rw [mergeAux_cons, if_pos hc]
      rw [hstep, hm]
      have hrec := ih (cs ++ [r]) (seen ++ [r.content]) (by rw [hseen]; simp)
      rw [hrec]
      simp
    · have hstep : mergeDedupStep (cs, seen) r = (cs, seen) := by
        unfold mergeDedupStep
        rw [if_neg hc]
      have hm : mergeAux seen (r :: rs) = mergeAux seen rs := by
        rw [mergeAux_cons, if_neg hc]
      rw [hstep, hm]
      exact ih cs seen hseen

/-- mergeDedup is mergeAux of the flattened per-sub-question lists. -/
theorem mergeDedup_eq_aux (results : List (List RChunk)) :
    mergeDedup results = mergeAux [] results.flatten := by
  have hflat : ∀ (L : List (List RChunk)) (acc : List RChunk × List String),
      L.foldl (fun acc rs => rs.foldl mergeDedupStep acc) acc
        = (L.flatten).foldl mergeDedupStep acc := by
    intro L
    induction L with
    | nil => intro acc; simp
    | cons rs rest ih =>
      intro acc
      simp [List.foldl_append, ih]
  unfold mergeDedup
  rw [hflat]
  have := mergeDedupStep_foldl results.flatten [] [] rfl
  rw [this]
  simp

/-- Everything the merge keeps comes from the input, in order. -/
theorem mergeAux_sublist (l : List RChunk) :
    ∀ seen, (mergeAux seen l).Sublist l := by
  induction l with
  | nil => intro seen; simp [mergeAux]
  | cons r rs ih =>
    intro seen
    unfold mergeAux
    by_cases hc : r.content ≠ "" ∧ ¬ seen.contains r.content
    · rw [if_pos hc]
      exact (ih _).cons₂ r
    · rw [if_neg hc]
      exact (ih _).cons r

/-- Everything kept has non-empty content not in the starting seen set. -/
theorem mergeAux_not_seen (l : List RChunk) :
    ∀ seen, ∀ r ∈ mergeAux seen l, r.content ≠ "" ∧ ¬ r.content ∈ seen := by
  induction l with
  | nil =>
    intro seen r hr
    simp [mergeAux] at hr
  | cons x rs ih =>
    intro seen r hr
    unfold mergeAux at hr
    by_cases hc : x.content ≠ "" ∧ ¬ seen.contains x.content
    · rw [if_pos hc] at hr
      rcases List.mem_cons.mp hr with hx | hr'
      · subst hx
        refine ⟨hc.1, fun hmem => hc.2 ?_⟩
        exact List.elem_iff.mpr hmem
      · have h := ih (seen ++ [x.content]) r hr'
        refine ⟨h.1, fun hmem => h.2 ?_⟩
        exact List.mem_append_left _ hmem
    · rw [if_neg hc] at hr
      exact ih seen r hr


/-- The kept contents are pairwise distinct. -/
theorem mergeAux_contents_nodup (l : List RChunk) :
    ∀ seen, ((mergeAux seen l).map (fun c => c.content)).Nodup := by
  induction l with
  | nil => intro seen; simp [mergeAux]
  | cons x rs ih =>
    intro seen
    unfold mergeAux
    by_cases hc : x.content ≠ "" ∧ ¬ seen.contains x.content
    · rw [if_pos hc]
      rw [List.map_cons, List.nodup_cons]
      refine ⟨?_, ih _⟩
      intro hmem
      rcases List.mem_map.mp hmem with ⟨q, hq, hqc⟩
      have h := (mergeAux_not_seen rs (seen ++ [x.content]) q hq).2
      apply h
      rw [hqc]
      exact List.mem_append_right _ (List.mem_singleton.mpr rfl)
    · rw [if_neg hc]
      exact ih seen

/-- Every non-empty content of the input not already seen is
represented among the kept chunks. -/
theorem mergeAux_coverage (l : List RChunk) :
    ∀ seen, ∀ r ∈ l, r.content ≠ "" → ¬ r.content ∈ seen →
      ∃ q ∈ mergeAux seen l, q.content = r.content := by
  induction l with
  | nil =>
    intro seen r hr
    simp at hr
  | cons x rs ih =>
    intro seen r hr hne hnotseen
    unfold mergeAux
    by_cases hc : x.content ≠ "" ∧ ¬ seen.contains x.content
    · rw [if_pos hc]
      rcases List.mem_cons.mp hr with hx | hr'
      · exact ⟨x, List.mem_cons_self x _, (congrArg (fun c => c.content) hx).symm⟩
      · by_cases heq : r.content = x.content
        · exact ⟨x, List.mem_cons_self x _, heq.symm⟩
        · have hnot2 : ¬ r.content ∈ seen ++ [x.content] := by
            intro hmem
            rcases List.mem_append.mp hmem with h1 | h1
            · exact hnotseen h1
            · exact heq (List.mem_singleton.mp h1)
          obtain ⟨q, hq, hqc⟩ := ih (seen ++ [x.content]) r hr' hne hnot2
          exact ⟨q, List.mem_cons_of_mem x hq, hqc⟩
    · rw [if_neg hc]
      rcases List.mem_cons.mp hr with hx | hr'
      · exfalso
        rw [hx] at hne hnotseen
        apply hnotseen
        rcases not_and_or.mp hc with h1 | h1
        · exact absurd hne (by simpa using h1)
        · have hcont : seen.contains x.content = true := by
            by_contra hfalse
            exact h1 (by simpa using hfalse)
          exact List.elem_iff.mp hcont
      · exact ih seen r hr' hne hnotseen

/-- A store whose ranking depends on the sub-question: q1 finds "a"
(distance 2), any other query finds "b" (distance 1). -/
def c3StoreMap : StoreMap :=
  [("f", fun q => if q = "q1"
    then [{ content := "a", score := 2, fileId := "f", levelIndex := 0 }]
    else [{ content := "b", score := 1, fileId := "f", levelIndex := 1 }])]

/-- The per-sub-question result lists of a Phase-2 retrieval with
sub-questions q1, q2 over file f with k = 1. -/
def c3Results : List (List RChunk) :=
  ["q1", "q2"].map (fun q => retrieve_context c3StoreMap q ["f"] 1 false)

/-- C3 counterexample: for the two sub-question retrieval c3Results
with k = 1, the code's merge keeps both chunks in concatenation
order ("a" before "b"), while the claimed reference pipeline sorts
by ascending score and truncates to the top 1, yielding just "b":
the merged list is neither sorted by score nor limited to k. -/
theorem c3_merge_counterexample :
    c3Results = [[{ content := "a", score := 2, fileId := "f", levelIndex := 0 }],
                 [{ content := "b", score := 1, fileId := "f", levelIndex := 1 }]]
      ∧ mergeDedup c3Results
          = [{ content := "a", score := 2, fileId := "f", levelIndex := 0 },
             { content := "b", score := 1, fileId := "f", levelIndex := 1 }]
      ∧ claimC3MergeRank c3Results 1
          = [{ content := "b", score := 1, fileId := "f", levelIndex := 1 }]
      ∧ mergeDedup c3Results ≠ claimC3MergeRank c3Results 1 := by
  refine ⟨rfl, rfl, rfl, by decide⟩

/-- C3 amended: the merge is a pure concatenation-order dedup: it is
a sublist of the concatenated per-sub-question results (so order is
concatenation order, with no score sort and no top-k truncation),
its contents are pairwise distinct and non-empty, and every
non-empty content of the union is represented (first occurrence
wins). -/
theorem c3_merge_amended (results : List (List RChunk)) :
    (mergeDedup results).Sublist results.flatten
      ∧ ((mergeDedup results).map (fun c => c.content)).Nodup
      ∧ (∀ r ∈ mergeDedup results, r.content ≠ "")
      ∧ (∀ r ∈ results.flatten, r.content ≠ "" →
          ∃ q ∈ mergeDedup results, q.content = r.content) := by
  rw [mergeDedup_eq_aux]
  refine ⟨mergeAux_sublist _ _, mergeAux_contents_nodup _ _, ?_, ?_⟩
  · intro r hr
    exact (mergeAux_not_seen _ _ r hr).1
  · intro r hr hne
    exact mergeAux_coverage _ _ r hr hne (by simp)

/-- C3 witness: the amended characterization applied at the concrete
two-sub-question retrieval c3Results. -/
theorem c3_merge_amended_witness :
    (mergeDedup c3Results).Sublist c3Results.flatten
      ∧ ((mergeDedup c3Results).map (fun c => c.content)).Nodup
      ∧ (∀ r ∈ mergeDedup c3Results, r.content ≠ "")
      ∧ (∀ r ∈ c3Results.flatten, r.content ≠ "" →
          ∃ q ∈ mergeDedup c3Results, q.content = r.content) :=
  c3_merge_amended c3Results

end MyPdfChat
